import Mathlib

/-!
Verification development for the policy-suggester backend
(`backend/main.py`).  The Python source is shallowly embedded: Python
strings become `List Char`, JSON values become the inductive `Json`,
`json.loads` becomes the fuel-based `json_loads`, and each post-processing
step of the two endpoints becomes an executable Lean function named after
the corresponding Python code.
-/

/-- Python strings are modelled as lists of characters (so that every
string operation is a structural, kernel-reducible function). -/
abbrev Str := List Char

/-- Left brace character, written via its code point. -/
def lbraceC : Char := Char.ofNat 123

/-- Right brace character, written via its code point. -/
def rbraceC : Char := Char.ofNat 125

/-- Double-quote character. -/
def quoteC : Char := Char.ofNat 34

/-- Backslash character. -/
def backslashC : Char := Char.ofNat 92

/-- Python `str.strip()`: drop whitespace from both ends. -/
def trimChars (l : Str) : Str :=
  ((l.dropWhile Char.isWhitespace).reverse.dropWhile Char.isWhitespace).reverse

/-- Python `str.lower()` (ASCII case fold, as used by the source). -/
def lowerStr (l : Str) : Str := l.map Char.toLower

/-- Python substring test `pat in t`. -/
def containsList : Str → Str → Bool
  | t, pat =>
    if pat.isPrefixOf t then true
    else
      match t with
      | [] => false
      | _ :: rest => containsList rest pat

/-- Helper for `splitOnStr`; `fuel` bounds the recursion depth. -/
def splitOnAux (pat : Str) : Nat → Str → Str → List Str
  | 0, _, acc => [acc.reverse]
  | _ + 1, [], acc => [acc.reverse]
  | fuel + 1, c :: rest, acc =>
    if pat.isPrefixOf (c :: rest) then
      acc.reverse :: splitOnAux pat fuel ((c :: rest).drop pat.length) []
    else
      splitOnAux pat fuel rest (c :: acc)

/-- Python `str.split(pat)` for a non-empty separator `pat`. -/
def splitOnStr (pat t : Str) : List Str := splitOnAux pat t.length t []

/-- Python `str.replace(pat, repl)`. -/
def replaceStr (pat repl t : Str) : Str :=
  List.intercalate repl (splitOnStr pat t)

/-- Digit string to number (used for `int(...)` on an all-digit string). -/
def digitsToNat (ds : Str) : Nat := ds.foldl (fun a c => a * 10 + (c.toNat - 48)) 0

/-- Python `str(n)` for an integer, as a character list. -/
def intToStr (i : Int) : Str := (toString i).data

/-- JSON values as produced by `json.loads`: numbers are kept as exact
rationals, objects as insertion-ordered key/value lists with unique keys
(duplicate keys overwrite in place, as for a Python `dict`). -/
inductive Json where
  | null : Json
  | bool (b : Bool) : Json
  | num (q : ℚ) : Json
  | str (s : Str) : Json
  | arr (elems : List Json) : Json
  | obj (fields : List (Str × Json)) : Json

/-- Python `dict` insertion: overwrite the value in place when the key is
present, otherwise append the pair. -/
def dictInsert (kvs : List (Str × Json)) (k : Str) (v : Json) : List (Str × Json) :=
  if kvs.any (fun kv => kv.1 == k) then
    kvs.map (fun kv => if kv.1 == k then (k, v) else kv)
  else kvs ++ [(k, v)]

/-- Python `dict` lookup returning `none` when the key is absent. -/
def jsonGet (kvs : List (Str × Json)) (k : Str) : Option Json :=
  (kvs.find? (fun kv => kv.1 == k)).map (fun kv => kv.2)

/-- Hex digit value, for `\\u` escapes. -/
def hexVal (c : Char) : Option Nat :=
  if c.isDigit then some (c.toNat - 48)
  else if 'a' ≤ c ∧ c ≤ 'f' then some (c.toNat - 87)
  else if 'A' ≤ c ∧ c ≤ 'F' then some (c.toNat - 55)
  else none

/-- Parse the body of a JSON string (the opening quote already consumed),
returning the decoded characters and the remaining input. -/
def parseStringBody (fuel : Nat) (cs : Str) : Option (Str × Str) :=
  match fuel with
  | 0 => none
  | fuel + 1 =>
    match cs with
    | [] => none
    | c :: rest =>
      if c == quoteC then some ([], rest)
      else if c == backslashC then
        match rest with
        | [] => none
        | e :: rest2 =>
          if e == quoteC then (parseStringBody fuel rest2).map (fun p => (quoteC :: p.1, p.2))
          else if e == backslashC then (parseStringBody fuel rest2).map (fun p => (backslashC :: p.1, p.2))
          else if e == '/' then (parseStringBody fuel rest2).map (fun p => ('/' :: p.1, p.2))
          else if e == 'b' then (parseStringBody fuel rest2).map (fun p => (Char.ofNat 8 :: p.1, p.2))
          else if e == 'f' then (parseStringBody fuel rest2).map (fun p => (Char.ofNat 12 :: p.1, p.2))
          else if e == 'n' then (parseStringBody fuel rest2).map (fun p => ('\n' :: p.1, p.2))
          else if e == 'r' then (parseStringBody fuel rest2).map (fun p => ('\r' :: p.1, p.2))
          else if e == 't' then (parseStringBody fuel rest2).map (fun p => ('\t' :: p.1, p.2))
          else if e == 'u' then
            match rest2 with
            | h1 :: h2 :: h3 :: h4 :: rest3 =>
              match hexVal h1, hexVal h2, hexVal h3, hexVal h4 with
              | some a, some b, some c2, some d =>
                (parseStringBody fuel rest3).map
                  (fun p => (Char.ofNat (((a * 16 + b) * 16 + c2) * 16 + d) :: p.1, p.2))
              | _, _, _, _ => none
            | _ => none
          else none
      else if c.toNat < 32 then none
      else (parseStringBody fuel rest).map (fun p => (c :: p.1, p.2))

/-- Parse a JSON number (grammar `-? (0 | [1-9][0-9]*) frac? exp?`). -/
def parseNumber (cs : Str) : Option (ℚ × Str) :=
  let signed : Bool × Str :=
    match cs with
    | c :: r => if c == '-' then (true, r) else (false, cs)
    | [] => (false, [])
  let neg := signed.1
  let cs1 := signed.2
  let intDigits := cs1.takeWhile Char.isDigit
  let rest1 := cs1.dropWhile Char.isDigit
  if intDigits = [] then none
  else if intDigits.length > 1 ∧ intDigits.head? = some '0' then none
  else
    let ip : ℚ := (digitsToNat intDigits : ℚ)
    let fracStep : Option (ℚ × Str) :=
      match rest1 with
      | c :: r =>
        if c == '.' then
          let fd := r.takeWhile Char.isDigit
          if fd = [] then none
          else some (ip + (digitsToNat fd : ℚ) / ((10 : ℚ) ^ fd.length), r.dropWhile Char.isDigit)
        else some (ip, rest1)
      | [] => some (ip, rest1)
    match fracStep with
    | none => none
    | some (q1, rest2) =>
      let expStep : Option (ℚ × Str) :=
        match rest2 with
        | c :: r =>
          if c == 'e' || c == 'E' then
            let esigned : Bool × Str :=
              match r with
              | c2 :: r2 => if c2 == '-' then (true, r2) else if c2 == '+' then (false, r2) else (false, r)
              | [] => (false, [])
            let ed := esigned.2.takeWhile Char.isDigit
            if ed = [] then none
            else
              let e := digitsToNat ed
              some (if esigned.1 then q1 / ((10 : ℚ) ^ e) else q1 * ((10 : ℚ) ^ e),
                    esigned.2.dropWhile Char.isDigit)
          else some (q1, rest2)
        | [] => some (q1, rest2)
      match expStep with
      | none => none
      | some (q2, rest3) => some (if neg then -q2 else q2, rest3)

mutual

/-- Parse one JSON value, skipping leading whitespace. -/
def parseValue (fuel : Nat) (cs : Str) : Option (Json × Str) :=
  match fuel with
  | 0 => none
  | fuel + 1 =>
    let cs := cs.dropWhile Char.isWhitespace
    match cs with
    | [] => none
    | c :: rest =>
      if c == quoteC then (parseStringBody (rest.length + 1) rest).map (fun p => (Json.str p.1, p.2))
      else if c == lbraceC then parseObjRest fuel rest
      else if c == '[' then parseArrRest fuel rest
      else if (['t', 'r', 'u', 'e'] : Str).isPrefixOf cs then some (Json.bool true, cs.drop 4)
      else if (['f', 'a', 'l', 's', 'e'] : Str).isPrefixOf cs then some (Json.bool false, cs.drop 5)
      else if (['n', 'u', 'l', 'l'] : Str).isPrefixOf cs then some (Json.null, cs.drop 4)
      else if c == '-' || c.isDigit then (parseNumber cs).map (fun p => (Json.num p.1, p.2))
      else none

/-- Parse the rest of an array (the opening bracket already consumed). -/
def parseArrRest (fuel : Nat) (cs : Str) : Option (Json × Str) :=
  match fuel with
  | 0 => none
  | fuel + 1 =>
    let cs1 := cs.dropWhile Char.isWhitespace
    match cs1 with
    | c :: rest => if c == ']' then some (Json.arr [], rest) else parseArrElems fuel cs1 []
    | [] => none

/-- Parse the comma-separated elements of a non-empty array. -/
def parseArrElems (fuel : Nat) (cs : Str) (acc : List Json) : Option (Json × Str) :=
  match fuel with
  | 0 => none
  | fuel + 1 =>
    match parseValue fuel cs with
    | none => none
    | some (v, rest) =>
      let rest1 := rest.dropWhile Char.isWhitespace
      match rest1 with
      | c :: rest2 =>
        if c == ',' then parseArrElems fuel rest2 (acc ++ [v])
        else if c == ']' then some (Json.arr (acc ++ [v]), rest2)
        else none
      | [] => none

/-- Parse the rest of an object (the opening brace already consumed). -/
def parseObjRest (fuel : Nat) (cs : Str) : Option (Json × Str) :=
  match fuel with
  | 0 => none
  | fuel + 1 =>
    let cs1 := cs.dropWhile Char.isWhitespace
    match cs1 with
    | c :: rest => if c == rbraceC then some (Json.obj [], rest) else parseObjFields fuel cs1 []
    | [] => none

/-- Parse the `"key": value` members of a non-empty object. -/
def parseObjFields (fuel : Nat) (cs : Str) (acc : List (Str × Json)) : Option (Json × Str) :=
  match fuel with
  | 0 => none
  | fuel + 1 =>
    let cs1 := cs.dropWhile Char.isWhitespace
    match cs1 with
    | c :: rest =>
      if c == quoteC then
        match parseStringBody (rest.length + 1) rest with
        | none => none
        | some (key, rest2) =>
          let rest3 := rest2.dropWhile Char.isWhitespace
          match rest3 with
          | c2 :: rest4 =>
            if c2 == ':' then
              match parseValue fuel rest4 with
              | none => none
              | some (v, rest5) =>
                let rest6 := rest5.dropWhile Char.isWhitespace
                match rest6 with
                | c3 :: rest7 =>
                  if c3 == ',' then parseObjFields fuel rest7 (dictInsert acc key v)
                  else if c3 == rbraceC then some (Json.obj (dictInsert acc key v), rest7)
                  else none
                | [] => none
            else none
          | [] => none
      else none
    | [] => none

end

/-- Python `json.loads`: parse exactly one JSON document, allowing
surrounding whitespace, and fail on trailing data. -/
def json_loads (s : Str) : Option Json :=
  let cs := trimChars s
  match parseValue (4 * cs.length + 16) cs with
  | some (v, rest) => if rest.dropWhile Char.isWhitespace = [] then some v else none
  | none => none

/-- Code-fence marker `"```json"`. -/
def fenceJson : Str := "```json".data

/-- Code-fence marker `"```"`. -/
def fenceBare : Str := "```".data

/-- Step 1 of the salvage ladder (`main.py` lines 204-208): strip a
code-fence wrapper, keeping the fenced interior. -/
def fence_strip (text : Str) : Str :=
  if containsList text fenceJson then
    trimChars ((splitOnStr fenceBare ((splitOnStr fenceJson text).getD 1 [])).getD 0 [])
  else if containsList text fenceBare then
    trimChars ((splitOnStr fenceBare ((splitOnStr fenceBare text).getD 1 [])).getD 0 [])
  else text

/-- Step 3 of the salvage ladder (`main.py` lines 215-222): the substring
from the first `{` to one past the last `}` (`none` when no `{` exists,
which in the source raises and falls to the default). -/
def brace_extract (text : Str) : Option Str :=
  match text.findIdx? (fun c => c == lbraceC) with
  | none => none
  | some start =>
    let endIdx : Nat :=
      match text.reverse.findIdx? (fun c => c == rbraceC) with
      | some j => text.length - j
      | none => 0
    some ((text.take endIdx).drop start)

/-- The fixed default document of the extraction endpoint
(`main.py` lines 226-236). -/
def defaultDoc : Json :=
  Json.obj
    [("company".data, Json.str "Unknown".data),
     ("plan".data, Json.str "Unknown".data),
     ("premium".data, Json.str "0".data),
     ("coverage".data, Json.str "0".data),
     ("policy_details".data,
       Json.obj [("start_date".data, Json.str "".data),
                 ("vintage".data, Json.str "Unknown".data)]),
     ("sum_insured".data,
       Json.obj [("total".data, Json.str "0".data),
                 ("components".data, Json.arr [])]),
     ("policy_holders".data, Json.arr []),
     ("features_found".data, Json.obj []),
     ("comprehensive_findings".data, Json.str "Could not extract data.".data)]

/-- The salvage ladder of the extraction endpoint (`main.py` lines
202-236): strip fences, strict parse, brace-substring parse, default. -/
def salvage (raw : Str) : Json :=
  let text := fence_strip (trimChars raw)
  match json_loads text with
  | some d => d
  | none =>
    match brace_extract text with
    | none => defaultDoc
    | some sub =>
      match json_loads sub with
      | some d => d
      | none => defaultDoc

/-- Calendar date, as the (year, month, day) triple of a Python
`datetime`. -/
structure Date where
  year : Nat
  month : Nat
  day : Nat

/-- Gregorian leap-year rule (as validated by `datetime.strptime`). -/
def isLeap (y : Nat) : Bool := y % 4 = 0 ∧ (y % 100 ≠ 0 ∨ y % 400 = 0)

/-- Number of days of month `m` of year `y`. -/
def daysInMonth (y m : Nat) : Nat :=
  if m = 2 then (if isLeap y then 29 else 28)
  else if m = 4 ∨ m = 6 ∨ m = 9 ∨ m = 11 then 30
  else 31

/-- Validity of a (year, month, day) triple for `datetime`. -/
def validDate (y m d : Nat) : Bool :=
  1 ≤ y ∧ y ≤ 9999 ∧ 1 ≤ m ∧ m ≤ 12 ∧ 1 ≤ d ∧ d ≤ daysInMonth y m

/-- A `%d` or `%m` field: one or two digits. -/
def parseNum2 (s : Str) : Option Nat :=
  if s ≠ [] ∧ s.length ≤ 2 ∧ s.all Char.isDigit then some (digitsToNat s) else none

/-- A `%Y` field: exactly four digits. -/
def parseYear4 (s : Str) : Option Nat :=
  if s.length = 4 ∧ s.all Char.isDigit then some (digitsToNat s) else none

/-- Month abbreviations accepted by `%b` (C locale), lower-cased. -/
def monthAbbrevs : List Str :=
  ["jan".data, "feb".data, "mar".data, "apr".data, "may".data, "jun".data,
   "jul".data, "aug".data, "sep".data, "oct".data, "nov".data, "dec".data]

/-- A `%b` field: a case-insensitive month abbreviation. -/
def parseMonthAbbrev (s : Str) : Option Nat :=
  match monthAbbrevs.findIdx? (fun m => m == lowerStr s) with
  | some i => some (i + 1)
  | none => none

/-- One fixed-format attempt `%d<sep>%m<sep>%Y`. -/
def tryDMY (sep : Str) (s : Str) : Option Date :=
  match splitOnStr sep s with
  | [ds, ms, ys] =>
    match parseNum2 ds, parseNum2 ms, parseYear4 ys with
    | some d, some m, some y => if validDate y m d then some ⟨y, m, d⟩ else none
    | _, _, _ => none
  | _ => none

/-- One fixed-format attempt `%Y<sep>%m<sep>%d`. -/
def tryYMD (sep : Str) (s : Str) : Option Date :=
  match splitOnStr sep s with
  | [ys, ms, ds] =>
    match parseYear4 ys, parseNum2 ms, parseNum2 ds with
    | some y, some m, some d => if validDate y m d then some ⟨y, m, d⟩ else none
    | _, _, _ => none
  | _ => none

/-- One fixed-format attempt `%d<sep>%b<sep>%Y`. -/
def tryDbY (sep : Str) (s : Str) : Option Date :=
  match splitOnStr sep s with
  | [ds, bs, ys] =>
    match parseNum2 ds, parseMonthAbbrev bs, parseYear4 ys with
    | some d, some m, some y => if validDate y m d then some ⟨y, m, d⟩ else none
    | _, _, _ => none
  | _ => none

/-- `parse_date` (`main.py` lines 91-97): try the five accepted formats
in order on the stripped string; `none` when every format fails. -/
def parse_date (date_str : Str) : Option Date :=
  let s := trimChars date_str
  match tryDMY "/".data s with
  | some d => some d
  | none =>
    match tryDMY "-".data s with
    | some d => some d
    | none =>
      match tryYMD "-".data s with
      | some d => some d
      | none =>
        match tryDbY "-".data s with
        | some d => some d
        | none => tryDbY " ".data s

/-- Age formula of `main.py` line 251: year difference, minus one when
the (month, day) pair of `today` is lexicographically before the
(month, day) pair of the birth date. -/
def compute_age (today dob : Date) : Int :=
  (today.year : Int) - (dob.year : Int) -
    (if today.month < dob.month ∨ (today.month = dob.month ∧ today.day < dob.day) then 1 else 0)

/-- Per-person step of the age recomputation loop (`main.py` lines
243-252): parse the `dob` string and overwrite `age` on success; leave
the record untouched when `dob` is empty or unparsable. -/
def update_person (today : Date) (p : Json) : Json :=
  match p with
  | Json.obj kvs =>
    let dobStr : Str :=
      match jsonGet kvs "dob".data with
      | some (Json.str s) => s
      | _ => []
    if dobStr = [] then p
    else
      match parse_date dobStr with
      | some dob => Json.obj (dictInsert kvs "age".data (Json.str (intToStr (compute_age today dob))))
      | none => p
  | _ => p

/-- Age recomputation over the document (`main.py` lines 241-252):
rewrite each record of a `policy_holders` list. -/
def recompute_ages (today : Date) (data : Json) : Json :=
  match data with
  | Json.obj kvs =>
    match jsonGet kvs "policy_holders".data with
    | some (Json.arr persons) =>
      Json.obj (dictInsert kvs "policy_holders".data (Json.arr (persons.map (update_person today))))
    | _ => data
  | _ => data

/-- `extract_number` (`main.py` lines 259-267): strip, drop commas,
truncate at the first decimal point, keep the digits. -/
def extract_number (val_str : Str) : Nat :=
  let s := (trimChars val_str).filter (fun c => c != ',')
  let s := if s.contains '.' then s.takeWhile (fun c => c != '.') else s
  digitsToNat (s.filter Char.isDigit)

/-- Grouping loop of `format_indian_currency` (`main.py` lines 275-279),
with `fuel` bounding the iteration count (each iteration removes two
characters, so `dic.length` iterations always suffice). -/
def indianGroupsAux (fuel : Nat) (dic : Str) : List Str :=
  match fuel with
  | 0 => [dic]
  | fuel + 1 =>
    if dic.length > 2 then
      indianGroupsAux fuel (dic.take (dic.length - 2)) ++ [dic.drop (dic.length - 2)]
    else [dic]

/-- Split the leading digits into pairs from the right. -/
def indianGroups (dic : Str) : List Str := indianGroupsAux dic.length dic

/-- `format_indian_currency` (`main.py` lines 269-280): South-Asian digit
grouping of `str(n)`. -/
def format_indian_currency (n : Int) : Str :=
  let s := intToStr n
  if s.length ≤ 3 then s
  else
    let dic := s.take (s.length - 3)
    let last3 := s.drop (s.length - 3)
    List.intercalate ",".data (indianGroups dic) ++ ",".data ++ last3

/-- Python `str(value)` for the scalar JSON values that reach
`extract_number` / label handling. -/
def pyStrOfJson (v : Json) : Str :=
  match v with
  | Json.str s => s
  | Json.num q => if q.den = 1 then intToStr q.num else "?".data
  | Json.bool true => "True".data
  | Json.bool false => "False".data
  | Json.null => "None".data
  | _ => "".data

/-- Lower-cased label of a component record (`comp.get("label", "").lower()`). -/
def comp_label (comp : Json) : Str :=
  match comp with
  | Json.obj kvs =>
    match jsonGet kvs "label".data with
    | some v => lowerStr (pyStrOfJson v)
    | none => []
  | _ => []

/-- Raw value string of a component record (`comp.get("value", "0")`). -/
def comp_value (comp : Json) : Str :=
  match comp with
  | Json.obj kvs =>
    match jsonGet kvs "value".data with
    | some v => pyStrOfJson v
    | none => "0".data
  | _ => "0".data

/-- Overwrite the `value` field of a component record. -/
def comp_set_value (comp : Json) (v : Str) : Json :=
  match comp with
  | Json.obj kvs => Json.obj (dictInsert kvs "value".data (Json.str v))
  | _ => comp

/-- Per-component step of the sum-insured loop (`main.py` lines 283-300):
skip non-positive and percentage components, subtract deductibles, add
everything else, and rewrite the kept component's display value. -/
def comp_step (acc : Int × List Json) (comp : Json) : Int × List Json :=
  let val := extract_number (comp_value comp)
  let label := comp_label comp
  if val > 0 then
    if containsList label "%".data || containsList label "percent".data then acc
    else
      let total := if containsList label "deductible".data then acc.1 - (val : Int) else acc.1 + (val : Int)
      (total, acc.2 ++ [comp_set_value comp (format_indian_currency (val : Int))])
  else acc

/-- Sum-insured recomputation (`main.py` lines 254-306): fold the
component list, overwrite `components` with the kept list and `total`
with the formatted signed sum. -/
def recompute_sum (data : Json) : Json :=
  match data with
  | Json.obj kvs =>
    match jsonGet kvs "sum_insured".data with
    | some (Json.obj si) =>
      match jsonGet si "components".data with
      | some (Json.arr comps) =>
        let folded := comps.foldl comp_step (0, [])
        let si1 := dictInsert si "components".data (Json.arr folded.2)
        let si2 := dictInsert si1 "total".data (Json.str (format_indian_currency folded.1))
        Json.obj (dictInsert kvs "sum_insured".data (Json.obj si2))
      | _ => data
    | _ => data
  | _ => data

/-- The extraction endpoint's post-parse pipeline (`main.py` lines
202-308): salvage the raw model text, then recompute ages, then
recompute the sum insured. -/
def extract_pipeline (today : Date) (raw : Str) : Json :=
  recompute_sum (recompute_ages today (salvage raw))

/-- Tenure computation of the comparison endpoint (`main.py` lines
344-358): difference of years and months, borrowing one year (and adding
12 months) when the month difference is negative; `"Unknown"` when the
inception string is empty or unparsable. -/
def calc_tenure (today : Date) (inception_str : Str) : Str :=
  if inception_str = [] then "Unknown".data
  else
    match parse_date inception_str with
    | none => "Unknown".data
    | some d =>
      let years : Int := (today.year : Int) - (d.year : Int)
      let months : Int := (today.month : Int) - (d.month : Int)
      let adjusted : Int × Int := if months < 0 then (years - 1, months + 12) else (years, months)
      intToStr adjusted.1 ++ " Years ".data ++ intToStr adjusted.2 ++ " Months".data

/-- Round-half-to-even of `a / b` (for `b > 0`), the integer rounding
used by Python's `round`. -/
def roundHalfEvenDiv (a b : Nat) : Nat :=
  let f := a / b
  let r := a % b
  if 2 * r < b then f
  else if 2 * r > b then f + 1
  else if f % 2 = 0 then f else f + 1

/-- Python `round(p / t * 10, 1)` for naturals `p`, `t` with `t > 0`:
the score in exact arithmetic, rounded to one decimal. -/
def py_round1_ratio (p t : Nat) : ℚ := mkRat (roundHalfEvenDiv (100 * p) t) 10

/-- True exactly when a feature record's field equals the given string
(Python `f.get(k) == s`: only a string value can compare equal). -/
def featFieldIs (f : Json) (k : Str) (s : Str) : Bool :=
  match f with
  | Json.obj kvs =>
    match jsonGet kvs k with
    | some (Json.str v) => v == s
    | _ => false
  | _ => false

/-- True when a JSON value is an object (a Python `dict`); a non-dict
entry of `feature_analysis` makes the score computation raise. -/
def isObjJson (f : Json) : Bool :=
  match f with
  | Json.obj _ => true
  | _ => false

/-- The deterministic score computation (`main.py` lines 667-692):
`none` models the `except` branch (some list entry is not a record). -/
def calc_product_score (features : List Json) : Option ℚ :=
  if features.all isObjJson then
    let non_negotiable := features.filter (fun f => featFieldIs f "category".data "Non-Negotiable Benefits".data)
    let must_have := features.filter (fun f => featFieldIs f "category".data "Must Have".data)
    let pos_nn := (non_negotiable.filter (fun f => featFieldIs f "status".data "Positive".data)).length
    let pos_mh := (must_have.filter (fun f => featFieldIs f "status".data "Positive".data)).length
    let total_relevant := non_negotiable.length + must_have.length
    let total_positive := pos_nn + pos_mh
    some (if total_relevant > 0 then py_round1_ratio total_positive total_relevant else 0)
  else none

/-- Score override step of the comparison endpoint (`main.py` lines
662-698): when `feature_analysis` is present, overwrite `product_score`
with the locally computed score; when the computation fails, keep the
model's value, defaulting to `0.0` only if absent. -/
def apply_score_override (result : Json) : Json :=
  match result with
  | Json.obj kvs =>
    match jsonGet kvs "feature_analysis".data with
    | none => result
    | some fa =>
      let computed : Option ℚ :=
        match fa with
        | Json.arr fs => calc_product_score fs
        | _ => none
      match computed with
      | some sc => Json.obj (dictInsert kvs "product_score".data (Json.num sc))
      | none =>
        if (jsonGet kvs "product_score".data).isSome then result
        else Json.obj (dictInsert kvs "product_score".data (Json.num 0))
  | _ => result

/-- One row of the plan-reference CSV, restricted to the two fields the
matcher consults. -/
structure CsvRow where
  company : Str
  plan : Str

/-- Score of one reference row (`main.py` lines 66-78): `none` when the
company coarse filter rejects the row, otherwise the similarity ratio
plus the `+0.1` containment bonus.  The `difflib` sequence-similarity
ratio is an external library and enters as the parameter `ratio`. -/
def row_score (ratio : Str → Str → ℚ) (norm_company norm_plan : Str) (row : CsvRow) : Option ℚ :=
  let csv_company := lowerStr row.company
  if !(containsList csv_company norm_company || containsList norm_company csv_company) then none
  else
    let csv_plan := lowerStr row.plan
    let r := ratio norm_plan csv_plan
    some (if containsList csv_plan norm_plan then r + mkRat 1 10 else r)

/-- Best-match loop of `match_policy_in_csv` (`main.py` lines 57-82):
track the single highest-scoring row, replacing only on a strictly
greater score. -/
def match_loop (score : CsvRow → Option ℚ) : List CsvRow → Option CsvRow × ℚ → Option CsvRow × ℚ
  | [], acc => acc
  | row :: rest, acc =>
    match score row with
    | none => match_loop score rest acc
    | some r => match_loop score rest (if r > acc.2 then (some row, r) else acc)

/-- `match_policy_in_csv` (`main.py` lines 48-89): guard on an empty plan
name, fold over the rows, and accept only a best score strictly above
`0.5`. -/
def match_policy_in_csv (ratio : Str → Str → ℚ) (company_name plan_name : Str)
    (rows : List CsvRow) : Option CsvRow :=
  if plan_name = [] then none
  else
    let norm_company := trimChars (lowerStr company_name)
    let norm_plan := trimChars (lowerStr plan_name)
    let best := match_loop (row_score ratio norm_company norm_plan) rows (none, 0)
    if best.2 > mkRat 1 2 then best.1 else none

/-- The ordered model-candidate list (`main.py` lines 35-43). -/
def MODEL_CANDIDATES : List Str :=
  ["gemini-2.0-flash-exp".data, "gemini-1.5-pro".data, "gemini-1.5-flash".data,
   "gemini-2.5-flash".data, "gemini-2.5-pro".data, "gemini-3.0-flash".data,
   "gemini-2.5-flash-lite".data]

/-- `generate_content_with_fallback` (`main.py` lines 99-131): try each
candidate in order, returning the first success; when every candidate
fails, raise the last failure cause (`.error none` models the generic
`Exception("All models failed")` raised when there is no recorded
cause).  The backend call is the external collaborator `outcome`. -/
def generate_content_with_fallback {ε ρ : Type} (outcome : Str → Except ε ρ) :
    List Str → Option ε → Except (Option ε) ρ
  | [], last => Except.error last
  | m :: rest, last =>
    match outcome m with
    | Except.ok r => Except.ok r
    | Except.error e =>
      let _ := last
      generate_content_with_fallback outcome rest (some e)

/-- The candidates actually attempted by the fallback loop (the loop
breaks on the first success). -/
def fallback_attempts {ε ρ : Type} (outcome : Str → Except ε ρ) : List Str → List Str
  | [] => []
  | m :: rest =>
    match outcome m with
    | Except.ok _ => [m]
    | Except.error _ => m :: fallback_attempts outcome rest

/-- Company-name normalization used by the ranking stage
(`main.py` lines 747 and 756): lower-case, drop `"general insurance"`
then `"insurance"`, strip. -/
def normalize_company (s : Str) : Str :=
  trimChars (replaceStr "insurance".data [] (replaceStr "general insurance".data [] (lowerStr s)))

/-- The `company` field of a recommendation entry (`rec.get("company", "")`). -/
def rec_company (rec : Json) : Str :=
  match rec with
  | Json.obj kvs =>
    match jsonGet kvs "company".data with
    | some (Json.str s) => s
    | _ => []
  | _ => []

/-- `get_csr_score` (`main.py` lines 755-764): exact normalized-key
lookup, then the first containment match in table order, else `0.0`. -/
def get_csr_score (table : List (Str × ℚ)) (rec : Json) : ℚ :=
  let c_name := normalize_company (rec_company rec)
  match table.find? (fun kv => kv.1 == c_name) with
  | some kv => kv.2
  | none =>
    match table.find? (fun kv => containsList c_name kv.1 || containsList kv.1 c_name) with
    | some kv => kv.2
    | none => 0

/-- The ranking stage (`main.py` line 767): a stable sort of the
recommendations by metric, descending (Python `list.sort` is stable;
`mergeSort` is its stable model). -/
def sort_recommendations (table : List (Str × ℚ)) (recs : List Json) : List Json :=
  recs.mergeSort (fun a b => decide (get_csr_score table b ≤ get_csr_score table a))

/-- The pros/cons clamping step (`main.py` lines 726-735): cap both lists
at 7 entries, then truncate pros to the cons length when longer. -/
def enforce_pros_cons (result : Json) : Json :=
  match result with
  | Json.obj kvs =>
    match jsonGet kvs "pros".data, jsonGet kvs "cons".data with
    | some (Json.arr pros), some (Json.arr cons) =>
      let pros7 := pros.take 7
      let cons7 := cons.take 7
      let prosFinal := if pros7.length > cons7.length then pros7.take cons7.length else pros7
      Json.obj (dictInsert (dictInsert kvs "pros".data (Json.arr prosFinal)) "cons".data (Json.arr cons7))
    | _, _ => result
  | _ => result

/-- Field lookup on a JSON object value (`none` on non-objects). -/
def objField (j : Json) (k : Str) : Option Json :=
  match j with
  | Json.obj kvs => jsonGet kvs k
  | _ => none

/-- Tenure as claim C6 words it (modelled from the spec sentence, for
comparison with `calc_tenure`): months is the calendar-month difference,
and one year is borrowed exactly when the day-of-month difference is
negative. -/
def claimed_tenure (today : Date) (inception_str : Str) : Str :=
  if inception_str = [] then "Unknown".data
  else
    match parse_date inception_str with
    | none => "Unknown".data
    | some d =>
      let years : Int :=
        (today.year : Int) - (d.year : Int) -
          (if (today.day : Int) - (d.day : Int) < 0 then 1 else 0)
      let months : Int := (today.month : Int) - (d.month : Int)
      intToStr years ++ " Years ".data ++ intToStr months ++ " Months".data

/-- Concrete backend outcome for the C2 witness: the second candidate
succeeds, every other candidate fails. -/
def outcomeW : Str → Except Str Nat :=
  fun m => if m = "gemini-1.5-pro".data then Except.ok 7 else Except.error m

/-- Concrete backend outcome for the C2 witness: every candidate fails
with itself as the cause. -/
def outcomeAllFail : Str → Except Str Nat := fun m => Except.error m

/-- Concrete person record for the C4 examples (model-reported age 99). -/
def person0 : Json :=
  Json.obj [("name".data, Json.str "A".data),
            ("dob".data, Json.str "15/06/1990".data),
            ("age".data, Json.str "99".data)]

/-- Concrete person record for the C4 witness. -/
def person1Fields : List (Str × Json) :=
  [("dob".data, Json.str "01/02/2000".data), ("age".data, Json.str "x".data)]

/-- Concrete component list for the C3 example. -/
def comps0 : List Json :=
  [Json.obj [("label".data, Json.str "Base Sum Insured".data),
             ("value".data, Json.str "10,00,000.50".data)],
   Json.obj [("label".data, Json.str "Bonus %".data),
             ("value".data, Json.str "10%".data)]]

/-- Concrete document holding `comps0`, for the C3 example. -/
def doc3 : Json :=
  Json.obj [("sum_insured".data,
             Json.obj [("total".data, Json.str "99".data),
                       ("components".data, Json.arr comps0)])]

/-- Concrete percentage component for the C3 witness. -/
def percentComp : Json :=
  Json.obj [("label".data, Json.str "Bonus %".data),
            ("value".data, Json.str "10%".data)]

/-- Raw model text for the C9 counterexample: well-formed JSON whose only
backticks sit inside a string literal. -/
def rawBad : Str := "\x7b\"a\": \"```\"\x7d".data

/-- Parsed value of `rawBad`. -/
def rawBadVal : Json := Json.obj [("a".data, Json.str "```".data)]

/-- Concrete metric table for the C7 examples. -/
def table0 : List (Str × ℚ) := [("bajaj allianz".data, 90), ("hdfc ergo".data, 86)]

/-- Concrete tie-table for the C7 stability example. -/
def tableTie : List (Str × ℚ) := [("aaa".data, 50), ("bbb".data, 50)]

/-- Concrete recommendation entries for the C7 examples. -/
def recBajaj : Json := Json.obj [("company".data, Json.str "Bajaj Allianz".data)]

/-- Concrete recommendation entry (second candidate). -/
def recHdfc : Json := Json.obj [("company".data, Json.str "HDFC Ergo".data)]

/-- Concrete recommendation entry with no table match. -/
def recNone : Json := Json.obj [("company".data, Json.str "Zzz Corp".data)]

/-- Concrete recommendation entries for the C7 tie example. -/
def recAaa : Json := Json.obj [("company".data, Json.str "Aaa".data)]

/-- Concrete recommendation entry scoring equal to `recAaa`. -/
def recBbb : Json := Json.obj [("company".data, Json.str "Bbb".data)]

/-- Constant similarity ratio used by the C8 witness examples. -/
def ratioOne : Str → Str → ℚ := fun _ _ => 1

/-- Constant zero similarity ratio used by the C8 witness examples. -/
def ratioZero : Str → Str → ℚ := fun _ _ => 0

/-- Concrete reference rows for the C8 examples. -/
def rowAlpha : CsvRow := ⟨"acme".data, "alpha".data⟩

/-- Concrete reference row scoring equal to `rowAlpha` in the tie example. -/
def rowBeta : CsvRow := ⟨"acme".data, "beta".data⟩

/-- Concrete result fields for the C10 witness: nine pros, three cons. -/
def prosConsFields : List (Str × Json) :=
  [("pros".data, Json.arr (List.replicate 9 (Json.str "p".data))),
   ("cons".data, Json.arr (List.replicate 3 (Json.str "c".data)))]

/-- The best score tracked by the matcher's loop over the reference rows
(the second component of the fold in `match_policy_in_csv`). -/
def best_score (ratio : Str → Str → ℚ) (company_name plan_name : Str)
    (rows : List CsvRow) : ℚ :=
  (match_loop (row_score ratio (trimChars (lowerStr company_name)) (trimChars (lowerStr plan_name)))
    rows (none, 0)).2

/-- Fence-marker removal of the comparison endpoint (`main.py` line 658):
delete every `"```json"`, then every `"```"`, then strip. -/
def compare_clean (raw : Str) : Str :=
  trimChars (replaceStr fenceBare [] (replaceStr fenceJson [] raw))

/-- The request's `company` value as consulted by the comparison
endpoint's default result (`data.get("company", "Unknown")`). -/
def compare_company (data : Json) : Json :=
  match data with
  | Json.obj kvs =>
    match jsonGet kvs "company".data with
    | some v => v
    | none => Json.str "Unknown".data
  | _ => Json.str "Unknown".data

/-- The safe default result of the comparison endpoint
(`main.py` lines 714-724). -/
def compare_default (data : Json) : Json :=
  Json.obj
    [("pros".data, Json.arr [Json.str "Could not analyze policy details.".data]),
     ("cons".data, Json.arr [Json.str "AI response was not in expected format.".data]),
     ("current_policy_stats".data,
       Json.obj [("company".data, compare_company data),
                 ("csr".data, Json.str "N/A".data),
                 ("csr_rank".data, Json.str "N/A".data),
                 ("solvency".data, Json.str "N/A".data),
                 ("solvency_rank".data, Json.str "N/A".data),
                 ("complaints".data, Json.str "N/A".data),
                 ("complaints_rank".data, Json.str "N/A".data)]),
     ("recommendations".data, Json.arr [])]

/-- The comparison endpoint's parse-and-score stage (`main.py` lines
652-724).  `none` models the `ValueError` raised on empty model text
(surfaced as an HTTP error, so no bundle is returned).  The score
override runs only on the strict-parse path; the brace-substring
fallback path returns the parsed bundle untouched, and a double failure
returns the safe default. -/
def compare_parse_score (data : Json) (raw : Str) : Option Json :=
  if raw = [] then none
  else
    let text := compare_clean raw
    some
      (match json_loads text with
       | some result => apply_score_override result
       | none =>
         match brace_extract text with
         | none => compare_default data
         | some sub =>
           match json_loads sub with
           | some result => result
           | none => compare_default data)

/-- The ranking stage applied to the result object (`main.py` lines
754-767): sort an existing `recommendations` list in place; leave any
other shape unchanged. -/
def apply_sort_recommendations (table : List (Str × ℚ)) (result : Json) : Json :=
  match result with
  | Json.obj kvs =>
    match jsonGet kvs "recommendations".data with
    | some (Json.arr recs) =>
      Json.obj (dictInsert kvs "recommendations".data (Json.arr (sort_recommendations table recs)))
    | _ => result
  | _ => result

/-- The comparison endpoint's full post-response stage (`main.py` lines
652-772): parse and score, clamp pros/cons, sort recommendations. -/
def compare_endpoint_result (data : Json) (table : List (Str × ℚ)) (raw : Str) : Option Json :=
  (compare_parse_score data raw).map
    (fun r => apply_sort_recommendations table (enforce_pros_cons r))

/-- Raw model text for the C5 counterexample: prose around a well-formed
bundle, so the strict parse fails and the brace-substring fallback
succeeds; the bundle's `feature_analysis` is a list of records and the
model reports `product_score` 8. -/
def rawFallback5 : Str :=
  ("Sure, here is the analysis you asked for: \x7b\"feature_analysis\": " ++
   "[\x7b\"category\": \"Non-Negotiable Benefits\", \"status\": \"Positive\"\x7d], " ++
   "\"product_score\": 8\x7d Let me know if you need more.").data

/-- The single feature record carried by `rawFallback5`. -/
def feats5 : List Json :=
  [Json.obj [("category".data, Json.str "Non-Negotiable Benefits".data),
             ("status".data, Json.str "Positive".data)]]

/-- The bundle parsed out of `rawFallback5` by the brace fallback. -/
def parsedFallback5 : Json :=
  Json.obj [("feature_analysis".data, Json.arr feats5),
            ("product_score".data, Json.num 8)]

/-- Raw model text for the C5 witness: a bare well-formed bundle, so the
strict parse succeeds and the score override runs. -/
def rawStrict5 : Str :=
  ("\x7b\"feature_analysis\": [\x7b\"category\": \"Non-Negotiable Benefits\", " ++
   "\"status\": \"Positive\"\x7d, \x7b\"category\": \"Must Have\", " ++
   "\"status\": \"Negative\"\x7d]\x7d").data

/-- The feature records carried by `rawStrict5`: one positive
Non-Negotiable record, one negative Must Have record. -/
def featsStrict5 : List Json :=
  [Json.obj [("category".data, Json.str "Non-Negotiable Benefits".data),
             ("status".data, Json.str "Positive".data)],
   Json.obj [("category".data, Json.str "Must Have".data),
             ("status".data, Json.str "Negative".data)]]

/-- The fields of the bundle parsed out of `rawStrict5`. -/
def kvsStrict5 : List (Str × Json) :=
  [("feature_analysis".data, Json.arr featsStrict5)]

/-! ### Supporting lemmas -/

theorem containsList_iff {t pat : Str} : containsList t pat = true ↔ pat <:+: t := by
  induction t with
  | nil =>
    rw [containsList]
    by_cases hpe : pat = []
    · subst hpe
      simp [List.isPrefixOf_iff_prefix]
    · simp [List.isPrefixOf_iff_prefix, List.prefix_nil, List.infix_nil, hpe]
  | cons c rest ih =>
    rw [containsList]
    by_cases hp : pat <+: c :: rest
    · simp [List.isPrefixOf_iff_prefix, hp, List.infix_cons_iff]
    · simp [List.isPrefixOf_iff_prefix, hp, List.infix_cons_iff, ih]

theorem head_dropWhile_false (p : Char → Bool) (l : Str) (c : Char)
    (h : (l.dropWhile p).head? = some c) : p c = false := by
  induction l with
  | nil => simp at h
  | cons a as ih =>
    rw [List.dropWhile_cons] at h
    by_cases hpa : p a
    · rw [if_pos hpa] at h
      exact ih h
    · rw [if_neg hpa] at h
      simp only [List.head?_cons, Option.some.injEq] at h
      subst h
      exact Bool.eq_false_iff.mpr hpa

theorem dropWhile_eq_self_of_head (p : Char → Bool) (l : Str)
    (h : ∀ c, l.head? = some c → p c = false) : l.dropWhile p = l := by
  cases l with
  | nil => rfl
  | cons a as =>
    have hpa := h a rfl
    rw [List.dropWhile_cons, hpa]
    simp

theorem dropWhile_dropWhile (p : Char → Bool) (l : Str) :
    (l.dropWhile p).dropWhile p = l.dropWhile p :=
  dropWhile_eq_self_of_head p _ (fun c hc => head_dropWhile_false p l c hc)

theorem trimChars_trimChars (l : Str) : trimChars (trimChars l) = trimChars l := by
  unfold trimChars
  have hyA : ((l.dropWhile Char.isWhitespace).reverse.dropWhile Char.isWhitespace).reverse
      <+: l.dropWhile Char.isWhitespace := by
    rw [← List.reverse_suffix, List.reverse_reverse]
    exact List.dropWhile_suffix Char.isWhitespace
  have hy : ((l.dropWhile Char.isWhitespace).reverse.dropWhile Char.isWhitespace).reverse.dropWhile
      Char.isWhitespace
      = ((l.dropWhile Char.isWhitespace).reverse.dropWhile Char.isWhitespace).reverse := by
    apply dropWhile_eq_self_of_head
    intro c hc
    obtain ⟨t, ht⟩ := hyA
    have hA : (l.dropWhile Char.isWhitespace).head? = some c := by
      rw [← ht, List.head?_append, hc]
      rfl
    exact head_dropWhile_false Char.isWhitespace l c hA
  rw [hy, List.reverse_reverse, dropWhile_dropWhile]

theorem jsonGet_dictInsert_self (kvs : List (Str × Json)) (k : Str) (v : Json) :
    jsonGet (dictInsert kvs k v) k = some v := by
  unfold dictInsert jsonGet
  by_cases h : kvs.any (fun kv => kv.1 == k)
  · rw [if_pos h, List.find?_map]
    obtain ⟨kv0, hmem, hkv0⟩ := List.any_eq_true.mp h
    have hpred : (fun kv => kv.1 == k) ∘ (fun kv : Str × Json => if kv.1 == k then (k, v) else kv)
        = fun kv : Str × Json => kv.1 == k := by
      funext kv
      by_cases hk : kv.1 == k
      · simp [Function.comp, hk]
      · simp [Function.comp, hk]
    rw [hpred]
    have hfind : kvs.find? (fun kv => kv.1 == k) |>.isSome := by
      rw [List.find?_isSome]
      exact ⟨kv0, hmem, hkv0⟩
    obtain ⟨kv1, hkv1⟩ := Option.isSome_iff_exists.mp hfind
    have hkey := List.find?_some hkv1
    have hk1 : kv1.1 = k := beq_iff_eq.mp hkey
    rw [hkv1]
    simp [hk1]
  · rw [if_neg h, List.find?_append]
    have hnone : kvs.find? (fun kv => kv.1 == k) = none := by
      rw [List.find?_eq_none]
      intro kv hkv
      exact fun hc => h (List.any_eq_true.mpr ⟨kv, hkv, hc⟩)
    rw [hnone]
    simp

theorem jsonGet_dictInsert_ne (kvs : List (Str × Json)) (k k2 : Str) (v : Json)
    (hne : k ≠ k2) : jsonGet (dictInsert kvs k v) k2 = jsonGet kvs k2 := by
  unfold dictInsert jsonGet
  by_cases h : kvs.any (fun kv => kv.1 == k)
  · rw [if_pos h, List.find?_map]
    have hpred : (fun kv => kv.1 == k2) ∘ (fun kv : Str × Json => if kv.1 == k then (k, v) else kv)
        = fun kv : Str × Json => kv.1 == k2 := by
      funext kv
      by_cases hk : kv.1 == k
      · have : kv.1 = k := by exact beq_iff_eq.mp hk
        simp [Function.comp, hk, this, hne, beq_iff_eq]
      · simp [Function.comp, hk]
    rw [hpred]
    cases hf : kvs.find? (fun kv => kv.1 == k2) with
    | none => simp
    | some kv0 =>
      have hkey := List.find?_some hf
      have hk0 : kv0.1 = k2 := beq_iff_eq.mp hkey
      have hne0 : kv0.1 ≠ k := by
        rw [hk0]
        exact fun hc => hne hc.symm
      simp [hne0]
  · rw [if_neg h, List.find?_append]
    have hkk : (k == k2) = false := beq_eq_false_iff_ne.mpr hne
    have hfs : ([(k, v)].find? (fun kv => kv.1 == k2)) = none := by
      simp [List.find?, hkk]
    rw [hfs]
    cases kvs.find? (fun kv => kv.1 == k2) <;> simp

/-! ### Claim C2: ordered fallback over model candidates -/

theorem fallback_ok_of_prefix_fail {ε ρ : Type} (outcome : Str → Except ε ρ) (r : ρ) :
    ∀ (pre : List Str) (mk : Str) (post : List Str) (last : Option ε),
      (∀ m ∈ pre, ∃ e, outcome m = Except.error e) → outcome mk = Except.ok r →
      generate_content_with_fallback outcome (pre ++ mk :: post) last = Except.ok r ∧
      fallback_attempts outcome (pre ++ mk :: post) = pre ++ [mk] := by
  intro pre
  induction pre with
  | nil =>
    intro mk post last _ hok
    constructor
    · show generate_content_with_fallback outcome (mk :: post) last = Except.ok r
      rw [generate_content_with_fallback, hok]
    · show fallback_attempts outcome (mk :: post) = [mk]
      rw [fallback_attempts, hok]
  | cons a pre ih =>
    intro mk post last hfail hok
    obtain ⟨e, he⟩ := hfail a (List.mem_cons_self a pre)
    have hrest := ih mk post (some e) (fun m hm => hfail m (List.mem_cons_of_mem a hm)) hok
    constructor
    · show generate_content_with_fallback outcome (a :: (pre ++ mk :: post)) last = Except.ok r
      rw [generate_content_with_fallback, he]
      exact hrest.1
    · show fallback_attempts outcome (a :: (pre ++ mk :: post)) = a :: (pre ++ [mk])
      rw [fallback_attempts, he, hrest.2]

theorem fallback_all_fail {ε ρ : Type} (outcome : Str → Except ε ρ) (efun : Str → ε) :
    ∀ (ms : List Str) (last : Option ε) (mlast : Str),
      (∀ m ∈ ms, outcome m = Except.error (efun m)) → ms.getLast? = some mlast →
      generate_content_with_fallback outcome ms last = Except.error (some (efun mlast)) := by
  intro ms
  induction ms with
  | nil =>
    intro last mlast _ hlast
    exact absurd hlast (by simp)
  | cons a rest ih =>
    intro last mlast hfail hlast
    have ha := hfail a (List.mem_cons_self a rest)
    show generate_content_with_fallback outcome (a :: rest) last = Except.error (some (efun mlast))
    rw [generate_content_with_fallback, ha]
    cases rest with
    | nil =>
      simp at hlast
      subst hlast
      rfl
    | cons b rest2 =>
      have hlast2 : (b :: rest2).getLast? = some mlast := by
        rw [← hlast]
        exact List.getLast?_cons_cons.symm
      exact ih (some (efun a)) mlast (fun m hm => hfail m (List.mem_cons_of_mem a hm)) hlast2

/-- C2: with candidates `1..k-1` failing and candidate `k` succeeding,
the fallback invoker returns candidate `k`'s response and attempts no
candidate after `k`; when every candidate fails, it raises the last
candidate's failure cause. -/
theorem C2_theorem {ε ρ : Type} (outcome : Str → Except ε ρ) :
    (∀ (pre : List Str) (mk : Str) (post : List Str) (r : ρ),
      (∀ m ∈ pre, ∃ e, outcome m = Except.error e) → outcome mk = Except.ok r →
      generate_content_with_fallback outcome (pre ++ mk :: post) none = Except.ok r ∧
      fallback_attempts outcome (pre ++ mk :: post) = pre ++ [mk]) ∧
    (∀ (ms : List Str) (efun : Str → ε) (mlast : Str),
      (∀ m ∈ ms, outcome m = Except.error (efun m)) → ms.getLast? = some mlast →
      generate_content_with_fallback outcome ms none = Except.error (some (efun mlast))) :=
  ⟨fun pre mk post r hfail hok => fallback_ok_of_prefix_fail outcome r pre mk post none hfail hok,
   fun ms efun mlast hfail hlast => fallback_all_fail outcome efun ms none mlast hfail hlast⟩

/-- C2 witness: on the source's model list, a second-candidate success is
returned after attempting exactly the first two candidates, and total
failure raises the last candidate's cause. -/
theorem C2_witness :
    generate_content_with_fallback outcomeW MODEL_CANDIDATES none = Except.ok 7 ∧
    fallback_attempts outcomeW MODEL_CANDIDATES =
      ["gemini-2.0-flash-exp".data, "gemini-1.5-pro".data] ∧
    generate_content_with_fallback outcomeAllFail MODEL_CANDIDATES none =
      Except.error (some "gemini-2.5-flash-lite".data) := by
  have h1 := (C2_theorem outcomeW).1 ["gemini-2.0-flash-exp".data] "gemini-1.5-pro".data
    ["gemini-1.5-flash".data, "gemini-2.5-flash".data, "gemini-2.5-pro".data,
     "gemini-3.0-flash".data, "gemini-2.5-flash-lite".data] 7
    (by
      intro m hm
      simp only [List.mem_singleton] at hm
      subst hm
      exact ⟨"gemini-2.0-flash-exp".data, rfl⟩)
    rfl
  have h2 := (C2_theorem outcomeAllFail).2 MODEL_CANDIDATES (fun m => m)
    "gemini-2.5-flash-lite".data (fun m _ => rfl) rfl
  exact ⟨h1.1, h1.2, h2⟩

/-! ### Claim C10: pros/cons clamping -/

/-- C10: whenever the comparison result has both a `pros` list and a
`cons` list, the returned pros and cons lists each have at most 7
entries and the pros list is never longer than the cons list. -/
theorem C10_theorem (kvs : List (Str × Json)) (pros cons : List Json)
    (hp : jsonGet kvs "pros".data = some (Json.arr pros))
    (hc : jsonGet kvs "cons".data = some (Json.arr cons)) :
    ∃ prosF consF,
      objField (enforce_pros_cons (Json.obj kvs)) "pros".data = some (Json.arr prosF) ∧
      objField (enforce_pros_cons (Json.obj kvs)) "cons".data = some (Json.arr consF) ∧
      prosF.length ≤ 7 ∧ consF.length ≤ 7 ∧ prosF.length ≤ consF.length := by
  refine ⟨if (pros.take 7).length > (cons.take 7).length
            then (pros.take 7).take (cons.take 7).length else pros.take 7,
          cons.take 7, ?_, ?_, ?_, ?_, ?_⟩
  · show objField (enforce_pros_cons (Json.obj kvs)) "pros".data = _
    rw [enforce_pros_cons, hp, hc]
    show jsonGet (dictInsert (dictInsert kvs "pros".data _) "cons".data _) "pros".data = _
    rw [jsonGet_dictInsert_ne _ _ _ _ (by decide), jsonGet_dictInsert_self]
  · show objField (enforce_pros_cons (Json.obj kvs)) "cons".data = _
    rw [enforce_pros_cons, hp, hc]
    show jsonGet (dictInsert (dictInsert kvs "pros".data _) "cons".data _) "cons".data = _
    rw [jsonGet_dictInsert_self]
  · split
    · simp only [List.length_take]
      omega
    · simp only [List.length_take]
      omega
  · simp only [List.length_take]
    omega
  · split
    · next h =>
      simp only [List.length_take] at h ⊢
      omega
    · next h =>
      simp only [List.length_take] at h ⊢
      omega

/-- C10 witness: nine pros and three cons clamp to three pros and three
cons. -/
theorem C10_witness :
    ∃ prosF consF,
      objField (enforce_pros_cons (Json.obj prosConsFields)) "pros".data = some (Json.arr prosF) ∧
      objField (enforce_pros_cons (Json.obj prosConsFields)) "cons".data = some (Json.arr consF) ∧
      prosF.length ≤ 7 ∧ consF.length ≤ 7 ∧ prosF.length ≤ consF.length :=
  C10_theorem prosConsFields (List.replicate 9 (Json.str "p".data))
    (List.replicate 3 (Json.str "c".data)) rfl rfl

/-! ### Claim C6: tenure recomputation -/

/-- C6 counterexample: for inception `20/06/2020` at current date
2024-07-10 the code yields `"4 Years 1 Months"` (no year is borrowed:
the month difference is non-negative), while the claim's
borrow-on-negative-day-difference rule yields `"3 Years 1 Months"`. -/
theorem C6_counterexample :
    calc_tenure ⟨2024, 7, 10⟩ "20/06/2020".data = "4 Years 1 Months".data ∧
    claimed_tenure ⟨2024, 7, 10⟩ "20/06/2020".data = "3 Years 1 Months".data ∧
    calc_tenure ⟨2024, 7, 10⟩ "20/06/2020".data ≠
      claimed_tenure ⟨2024, 7, 10⟩ "20/06/2020".data :=
  ⟨rfl, rfl, by decide⟩

/-- C6 (amended): tenure from a parsable inception date renders
`"<N> Years <M> Months"` where one year is borrowed (and 12 months
added) exactly when the calendar-month difference is negative — the
day of month is not consulted; an empty or unparsable inception string
reports `"Unknown"`. -/
theorem C6_amended_theorem :
    (∀ (today : Date) (s : Str) (d : Date), s ≠ [] → parse_date s = some d →
      calc_tenure today s =
        intToStr ((today.year : Int) - (d.year : Int) -
            (if (today.month : Int) - (d.month : Int) < 0 then 1 else 0)) ++
          " Years ".data ++
          intToStr (if (today.month : Int) - (d.month : Int) < 0
              then (today.month : Int) - (d.month : Int) + 12
              else (today.month : Int) - (d.month : Int)) ++
          " Months".data) ∧
    (∀ (today : Date) (s : Str), parse_date s = none → calc_tenure today s = "Unknown".data) := by
  constructor
  · intro today s d hs hparse
    simp only [calc_tenure, if_neg hs, hparse]
    by_cases hm : (today.month : Int) - (d.month : Int) < 0
    · simp only [if_pos hm]
    · simp only [if_neg hm, sub_zero]
  · intro today s hparse
    simp only [calc_tenure, hparse]
    exact ite_self _

/-- C6 witness: inception `15/03/2020` at current date 2024-01-10 gives
`"3 Years 10 Months"` (month difference −2 borrows a year). -/
theorem C6_witness : calc_tenure ⟨2024, 1, 10⟩ "15/03/2020".data = "3 Years 10 Months".data := by
  have h := C6_amended_theorem.1 ⟨2024, 1, 10⟩ "15/03/2020".data ⟨2020, 3, 15⟩ (by decide) rfl
  rw [h]
  rfl

/-! ### Claim C4: age recomputation -/

/-- C4: a date of birth parsing under one of the five formats makes the
recomputed age `current_year - birth_year`, minus one exactly when
(current month, current day) is lexicographically before (birth month,
birth day) — that is the `compute_age` formula; `15/06/1990` gives age
33 at 2024-01-10 and 34 at 2024-07-20; an unparsable date of birth
leaves the record untouched. -/
theorem C4_theorem :
    (parse_date "15/06/1990".data = some ⟨1990, 6, 15⟩ ∧
     parse_date "10-Jan-2024".data = some ⟨2024, 1, 10⟩ ∧
     parse_date "20-Jul-2024".data = some ⟨2024, 7, 20⟩) ∧
    (update_person ⟨2024, 1, 10⟩ person0 =
       Json.obj [("name".data, Json.str "A".data),
                 ("dob".data, Json.str "15/06/1990".data),
                 ("age".data, Json.str "33".data)] ∧
     update_person ⟨2024, 7, 20⟩ person0 =
       Json.obj [("name".data, Json.str "A".data),
                 ("dob".data, Json.str "15/06/1990".data),
                 ("age".data, Json.str "34".data)]) ∧
    (∀ (today : Date) (kvs : List (Str × Json)) (s : Str) (d : Date),
      jsonGet kvs "dob".data = some (Json.str s) → s ≠ [] → parse_date s = some d →
      update_person today (Json.obj kvs) =
        Json.obj (dictInsert kvs "age".data (Json.str (intToStr (compute_age today d))))) ∧
    (∀ (today : Date) (kvs : List (Str × Json)) (s : Str),
      jsonGet kvs "dob".data = some (Json.str s) → parse_date s = none →
      update_person today (Json.obj kvs) = Json.obj kvs) := by
  refine ⟨⟨rfl, rfl, rfl⟩, ⟨rfl, rfl⟩, ?_, ?_⟩
  · intro today kvs s d h1 hs h3
    simp only [update_person, h1, if_neg hs, h3]
  · intro today kvs s h1 h3
    simp only [update_person, h1, h3]
    split
    · rfl
    · rfl

/-- C4 witness: the general age-override equation applied to a record
with date of birth `01/02/2000` at current date 2025-01-01. -/
theorem C4_witness :
    update_person ⟨2025, 1, 1⟩ (Json.obj person1Fields) =
      Json.obj (dictInsert person1Fields "age".data
        (Json.str (intToStr (compute_age ⟨2025, 1, 1⟩ ⟨2000, 2, 1⟩)))) :=
  C4_theorem.2.2.1 ⟨2025, 1, 1⟩ person1Fields "01/02/2000".data ⟨2000, 2, 1⟩ rfl (by decide) rfl

/-! ### Claim C3: monetary normalization -/

/-- C3: the component `"10,00,000.50"` labelled `"Base Sum Insured"`
contributes the integer amount 1000000 and is rewritten to the display
string `"10,00,000"` (which also becomes the recomputed total), and any
component whose lower-cased label contains `"%"` or `"percent"` leaves
both the running total and the kept component list unchanged. -/
theorem C3_theorem :
    (comps0.foldl comp_step (0, []) =
      (1000000,
       [Json.obj [("label".data, Json.str "Base Sum Insured".data),
                  ("value".data, Json.str "10,00,000".data)]]) ∧
     recompute_sum doc3 =
       Json.obj [("sum_insured".data,
         Json.obj [("total".data, Json.str "10,00,000".data),
                   ("components".data,
                    Json.arr [Json.obj [("label".data, Json.str "Base Sum Insured".data),
                                        ("value".data, Json.str "10,00,000".data)]])])]) ∧
    (∀ (acc : Int × List Json) (comp : Json),
      containsList (comp_label comp) "%".data = true ∨
        containsList (comp_label comp) "percent".data = true →
      comp_step acc comp = acc) := by
  refine ⟨⟨rfl, rfl⟩, ?_⟩
  intro acc comp h
  cases h with
  | inl h => simp [comp_step, h]
  | inr h => simp [comp_step, h]

/-- C3 witness: the percentage-exclusion equation applied to the
`"Bonus %"`/`"10%"` component at a nonzero accumulator. -/
theorem C3_witness : comp_step (5, []) percentComp = (5, []) :=
  C3_theorem.2 (5, []) percentComp (Or.inl rfl)

/-! ### Claim C1: the default document on total salvage failure -/

/-- C1 counterexample: on raw text where the whole salvage ladder fails,
the returned default document's `company` field is the placeholder
string `"Unknown"`, not the empty string the claim requires of every
string field. -/
theorem C1_counterexample :
    objField (extract_pipeline ⟨2024, 1, 10⟩ "no json here".data) "company".data =
      some (Json.str "Unknown".data) ∧
    "Unknown".data ≠ ([] : Str) :=
  ⟨rfl, by decide⟩

/-- C1 (amended): when the strict parse and the brace-substring parse of
the fence-stripped text both fail, the extraction endpoint returns
exactly the fixed default document: every expected field is present and
non-null — lists are empty, `start_date` is the empty string, the
monetary fields are the string `"0"` — but `company`, `plan` and
`vintage` are the placeholder `"Unknown"` and `comprehensive_findings`
is `"Could not extract data."`, not empty strings. -/
theorem C1_amended_theorem (today : Date) (raw : Str)
    (h1 : json_loads (fence_strip (trimChars raw)) = none)
    (h2 : (brace_extract (fence_strip (trimChars raw))).bind json_loads = none) :
    extract_pipeline today raw =
      Json.obj
        [("company".data, Json.str "Unknown".data),
         ("plan".data, Json.str "Unknown".data),
         ("premium".data, Json.str "0".data),
         ("coverage".data, Json.str "0".data),
         ("policy_details".data,
           Json.obj [("start_date".data, Json.str "".data),
                     ("vintage".data, Json.str "Unknown".data)]),
         ("sum_insured".data,
           Json.obj [("total".data, Json.str "0".data),
                     ("components".data, Json.arr [])]),
         ("policy_holders".data, Json.arr []),
         ("features_found".data, Json.obj []),
         ("comprehensive_findings".data, Json.str "Could not extract data.".data)] := by
  have hsal : salvage raw = defaultDoc := by
    simp only [salvage, h1]
    cases hbe : brace_extract (fence_strip (trimChars raw)) with
    | none => rfl
    | some sub =>
      rw [hbe] at h2
      simp only [Option.some_bind] at h2
      simp [h2]
  show recompute_sum (recompute_ages today (salvage raw)) = _
  rw [hsal]
  rfl

/-- C1 witness: the amended default-document equation at the raw text
`"no json here"`, on which every ladder step fails. -/
theorem C1_witness :
    extract_pipeline ⟨2024, 1, 10⟩ "no json here".data =
      Json.obj
        [("company".data, Json.str "Unknown".data),
         ("plan".data, Json.str "Unknown".data),
         ("premium".data, Json.str "0".data),
         ("coverage".data, Json.str "0".data),
         ("policy_details".data,
           Json.obj [("start_date".data, Json.str "".data),
                     ("vintage".data, Json.str "Unknown".data)]),
         ("sum_insured".data,
           Json.obj [("total".data, Json.str "0".data),
                     ("components".data, Json.arr [])]),
         ("policy_holders".data, Json.arr []),
         ("features_found".data, Json.obj []),
         ("comprehensive_findings".data, Json.str "Could not extract data.".data)] :=
  C1_amended_theorem ⟨2024, 1, 10⟩ "no json here".data rfl rfl

/-! ### Claim C9: salvage round-trip on undecorated well-formed text -/

theorem contains_fenceJson_imp (t : Str) (h : containsList t fenceJson = true) :
    containsList t fenceBare = true := by
  rw [containsList_iff] at h ⊢
  exact List.IsInfix.trans (List.IsPrefix.isInfix (by decide)) h

/-- C9 counterexample: `{"a": "```"}` is well-formed JSON that is not
wrapped in decoration (its backticks sit inside a string literal), the
direct strict parse succeeds, yet the salvage ladder mangles it on the
fence-stripping step and returns the default document instead of the
parsed value. -/
theorem C9_counterexample :
    json_loads rawBad = some rawBadVal ∧
    salvage rawBad = defaultDoc ∧
    defaultDoc ≠ rawBadVal := by
  refine ⟨rfl, rfl, ?_⟩
  intro h
  have hlen := congrArg (fun j => match j with | Json.obj kvs => kvs.length | _ => 0) h
  simp [defaultDoc, rawBadVal] at hlen

/-- C9 (amended): for raw text whose stripped form contains no
code-fence marker, whenever the direct strict parse succeeds the
salvage parser returns exactly that parsed value. -/
theorem C9_amended_theorem (raw : Str) (v : Json)
    (hfence : containsList (trimChars raw) fenceBare = false)
    (hparse : json_loads raw = some v) :
    salvage raw = v := by
  have hfj : containsList (trimChars raw) fenceJson = false := by
    cases hc : containsList (trimChars raw) fenceJson
    · rfl
    · rw [contains_fenceJson_imp _ hc] at hfence
      exact absurd hfence (by simp)
  have hfs : fence_strip (trimChars raw) = trimChars raw := by
    rw [fence_strip, hfj, hfence]
    simp
  have hjl : json_loads (trimChars raw) = json_loads raw := by
    unfold json_loads
    rw [trimChars_trimChars]
  simp only [salvage, hfs, hjl, hparse]

/-- C9 witness: whitespace-padded well-formed JSON with no fences
salvages to its direct strict parse. -/
theorem C9_witness :
    salvage "  \x7b\"plan\": \"X\"\x7d  ".data = Json.obj [("plan".data, Json.str "X".data)] :=
  C9_amended_theorem "  \x7b\"plan\": \"X\"\x7d  ".data
    (Json.obj [("plan".data, Json.str "X".data)]) (by decide) rfl

/-! ### Claim C5: deterministic product score -/

theorem featFieldIs_disjoint (f : Json) (k s1 s2 : Str) (hne : s1 ≠ s2)
    (h1 : featFieldIs f k s1 = true) : featFieldIs f k s2 = false := by
  cases f with
  | obj kvs =>
    simp only [featFieldIs] at h1 ⊢
    cases hg : jsonGet kvs k with
    | none => rw [hg] at h1
    | some v =>
      rw [hg] at h1
      cases v with
      | str sv =>
        have hs : sv = s1 := beq_iff_eq.mp h1
        subst hs
        exact beq_eq_false_iff_ne.mpr hne
      | null => simp at h1
      | bool b => simp at h1
      | num q => simp at h1
      | arr xs => simp at h1
      | obj o => simp at h1
  | null => exact absurd h1 (by simp [featFieldIs])
  | bool b => exact absurd h1 (by simp [featFieldIs])
  | num q => exact absurd h1 (by simp [featFieldIs])
  | str s => exact absurd h1 (by simp [featFieldIs])
  | arr xs => exact absurd h1 (by simp [featFieldIs])

theorem filter_or_length (fs : List Json) (p q : Json → Bool)
    (hdisj : ∀ f, p f = true → q f = false) :
    (fs.filter (fun f => p f || q f)).length = (fs.filter p).length + (fs.filter q).length := by
  induction fs with
  | nil => rfl
  | cons f fs ih =>
    by_cases hp : p f = true
    · have hq := hdisj f hp
      simp [List.filter_cons, hp, hq, ih]
      omega
    · have hp2 : p f = false := by
        cases hpf : p f
        · rfl
        · exact absurd hpf hp
      by_cases hq : q f = true
      · simp [List.filter_cons, hp2, hq, ih]
        omega
      · have hq2 : q f = false := by
          cases hqf : q f
          · rfl
          · exact absurd hqf hq
        simp [List.filter_cons, hp2, hq2, ih]

theorem score_override_of_records (kvs : List (Str × Json)) (fs : List Json)
    (hfa : jsonGet kvs "feature_analysis".data = some (Json.arr fs))
    (hrec : fs.all isObjJson = true) :
    objField (apply_score_override (Json.obj kvs)) "product_score".data =
      some (Json.num
        (if 0 < (fs.filter (fun f =>
              featFieldIs f "category".data "Non-Negotiable Benefits".data ||
              featFieldIs f "category".data "Must Have".data)).length then
          py_round1_ratio
            ((fs.filter (fun f =>
                (featFieldIs f "category".data "Non-Negotiable Benefits".data ||
                 featFieldIs f "category".data "Must Have".data) &&
                featFieldIs f "status".data "Positive".data)).length)
            ((fs.filter (fun f =>
                featFieldIs f "category".data "Non-Negotiable Benefits".data ||
                featFieldIs f "category".data "Must Have".data)).length)
        else 0)) := by
  have hdisj : ∀ f, featFieldIs f "category".data "Non-Negotiable Benefits".data = true →
      featFieldIs f "category".data "Must Have".data = false :=
    fun f hf => featFieldIs_disjoint f _ _ _ (by decide) hf
  have hlen := filter_or_length fs
    (fun f => featFieldIs f "category".data "Non-Negotiable Benefits".data)
    (fun f => featFieldIs f "category".data "Must Have".data) hdisj
  have hdisj2 : ∀ f,
      (featFieldIs f "category".data "Non-Negotiable Benefits".data &&
        featFieldIs f "status".data "Positive".data) = true →
      (featFieldIs f "category".data "Must Have".data &&
        featFieldIs f "status".data "Positive".data) = false := by
    intro f hf
    have h1 : featFieldIs f "category".data "Non-Negotiable Benefits".data = true :=
      (Bool.and_eq_true _ _ ▸ hf).1
    rw [hdisj f h1]
    rfl
  have hpos := filter_or_length fs
    (fun f => featFieldIs f "category".data "Non-Negotiable Benefits".data &&
      featFieldIs f "status".data "Positive".data)
    (fun f => featFieldIs f "category".data "Must Have".data &&
      featFieldIs f "status".data "Positive".data) hdisj2
  have hdistrib : fs.filter (fun f =>
      (featFieldIs f "category".data "Non-Negotiable Benefits".data ||
       featFieldIs f "category".data "Must Have".data) &&
      featFieldIs f "status".data "Positive".data) =
    fs.filter (fun f =>
      (featFieldIs f "category".data "Non-Negotiable Benefits".data &&
        featFieldIs f "status".data "Positive".data) ||
      (featFieldIs f "category".data "Must Have".data &&
        featFieldIs f "status".data "Positive".data)) := by
    apply List.filter_congr
    intro f _
    cases featFieldIs f "category".data "Non-Negotiable Benefits".data <;>
      cases featFieldIs f "category".data "Must Have".data <;>
      cases featFieldIs f "status".data "Positive".data <;> rfl
  have hff1 : (fs.filter (fun f => featFieldIs f "category".data "Non-Negotiable Benefits".data)).filter
      (fun f => featFieldIs f "status".data "Positive".data) =
    fs.filter (fun f => featFieldIs f "category".data "Non-Negotiable Benefits".data &&
      featFieldIs f "status".data "Positive".data) := by
    rw [List.filter_filter]
    apply List.filter_congr
    intro f _
    cases featFieldIs f "category".data "Non-Negotiable Benefits".data <;>
      cases featFieldIs f "status".data "Positive".data <;> rfl
  have hff2 : (fs.filter (fun f => featFieldIs f "category".data "Must Have".data)).filter
      (fun f => featFieldIs f "status".data "Positive".data) =
    fs.filter (fun f => featFieldIs f "category".data "Must Have".data &&
      featFieldIs f "status".data "Positive".data) := by
    rw [List.filter_filter]
    apply List.filter_congr
    intro f _
    cases featFieldIs f "category".data "Must Have".data <;>
      cases featFieldIs f "status".data "Positive".data <;> rfl
  simp only [apply_score_override, hfa, calc_product_score, hrec, if_true]
  show jsonGet (dictInsert kvs "product_score".data _) "product_score".data = _
  rw [jsonGet_dictInsert_self]
  congr 2
  rw [hdistrib, hpos, ← hff1, ← hff2, hlen]


theorem objField_enforce_product_score (r : Json) :
    objField (enforce_pros_cons r) "product_score".data = objField r "product_score".data := by
  cases r with
  | obj kvs =>
    simp only [enforce_pros_cons]
    cases hp : jsonGet kvs "pros".data with
    | none => rfl
    | some vp =>
      cases hc : jsonGet kvs "cons".data with
      | none => cases vp <;> rfl
      | some vc =>
        cases vp <;> cases vc <;> try rfl
        show jsonGet (dictInsert (dictInsert kvs "pros".data _) "cons".data _)
            "product_score".data = jsonGet kvs "product_score".data
        rw [jsonGet_dictInsert_ne _ _ _ _ (by decide),
            jsonGet_dictInsert_ne _ _ _ _ (by decide)]
  | null => rfl
  | bool b => rfl
  | num q => rfl
  | str s => rfl
  | arr xs => rfl

theorem objField_sort_product_score (table : List (Str × ℚ)) (r : Json) :
    objField (apply_sort_recommendations table r) "product_score".data =
      objField r "product_score".data := by
  cases r with
  | obj kvs =>
    simp only [apply_sort_recommendations]
    cases hr : jsonGet kvs "recommendations".data with
    | none => rfl
    | some v =>
      cases v <;> try rfl
      show jsonGet (dictInsert kvs "recommendations".data _) "product_score".data =
        jsonGet kvs "product_score".data
      rw [jsonGet_dictInsert_ne _ _ _ _ (by decide)]
  | null => rfl
  | bool b => rfl
  | num q => rfl
  | str s => rfl
  | arr xs => rfl

set_option maxRecDepth 16384 in
/-- C5 counterexample: the raw model text `rawFallback5` wraps a
well-formed bundle in prose, so the strict parse fails and the
brace-substring fallback parses it; its `feature_analysis` is a list of
records, yet the comparison endpoint returns the bundle with the
model-reported `product_score` 8 — not the claim's locally computed
value, which for this bundle is `round(1/1*10, 1) = 10.0`. -/
theorem C5_counterexample :
    compare_endpoint_result (Json.obj []) [] rawFallback5 = some parsedFallback5 ∧
    objField parsedFallback5 "feature_analysis".data = some (Json.arr feats5) ∧
    feats5.all isObjJson = true ∧
    objField parsedFallback5 "product_score".data = some (Json.num 8) ∧
    (if 0 < (feats5.filter (fun f =>
          featFieldIs f "category".data "Non-Negotiable Benefits".data ||
          featFieldIs f "category".data "Must Have".data)).length then
        py_round1_ratio
          ((feats5.filter (fun f =>
              (featFieldIs f "category".data "Non-Negotiable Benefits".data ||
               featFieldIs f "category".data "Must Have".data) &&
              featFieldIs f "status".data "Positive".data)).length)
          ((feats5.filter (fun f =>
              featFieldIs f "category".data "Non-Negotiable Benefits".data ||
              featFieldIs f "category".data "Must Have".data)).length)
      else 0) = py_round1_ratio 1 1 ∧
    (8 : ℚ) ≠ py_round1_ratio 1 1 :=
  ⟨rfl, rfl, rfl, rfl, rfl, by decide⟩

/-- C5 (amended): the comparison endpoint computes `product_score`
locally — as `round(positives / total * 10, 1)` over the records of the
two highest-priority categories, `0.0` when those categories hold no
records — exactly on the strict-parse path with a `feature_analysis`
list of records; when the raw text parses only through the
brace-substring fallback, or when the local computation fails on a
non-record entry, the model-reported `product_score` is returned
unchanged. -/
theorem C5_amended_theorem :
    (∀ (data : Json) (table : List (Str × ℚ)) (raw : Str) (kvs : List (Str × Json))
        (fs : List Json),
      raw ≠ [] →
      json_loads (compare_clean raw) = some (Json.obj kvs) →
      jsonGet kvs "feature_analysis".data = some (Json.arr fs) →
      fs.all isObjJson = true →
      ∃ res, compare_endpoint_result data table raw = some res ∧
        objField res "product_score".data =
          some (Json.num
            (if 0 < (fs.filter (fun f =>
                  featFieldIs f "category".data "Non-Negotiable Benefits".data ||
                  featFieldIs f "category".data "Must Have".data)).length then
              py_round1_ratio
                ((fs.filter (fun f =>
                    (featFieldIs f "category".data "Non-Negotiable Benefits".data ||
                     featFieldIs f "category".data "Must Have".data) &&
                    featFieldIs f "status".data "Positive".data)).length)
                ((fs.filter (fun f =>
                    featFieldIs f "category".data "Non-Negotiable Benefits".data ||
                    featFieldIs f "category".data "Must Have".data)).length)
            else 0))) ∧
    (∀ (data : Json) (table : List (Str × ℚ)) (raw sub : Str) (kvs : List (Str × Json)),
      raw ≠ [] →
      json_loads (compare_clean raw) = none →
      brace_extract (compare_clean raw) = some sub →
      json_loads sub = some (Json.obj kvs) →
      ∃ res, compare_endpoint_result data table raw = some res ∧
        objField res "product_score".data = jsonGet kvs "product_score".data) ∧
    (∀ (data : Json) (table : List (Str × ℚ)) (raw : Str) (kvs : List (Str × Json))
        (fs : List Json),
      raw ≠ [] →
      json_loads (compare_clean raw) = some (Json.obj kvs) →
      jsonGet kvs "feature_analysis".data = some (Json.arr fs) →
      fs.all isObjJson = false →
      (jsonGet kvs "product_score".data).isSome = true →
      ∃ res, compare_endpoint_result data table raw = some res ∧
        objField res "product_score".data = jsonGet kvs "product_score".data) := by
  refine ⟨?_, ?_, ?_⟩
  · intro data table raw kvs fs hraw hparse hfa hrec
    refine ⟨apply_sort_recommendations table
      (enforce_pros_cons (apply_score_override (Json.obj kvs))), ?_, ?_⟩
    · simp only [compare_endpoint_result, compare_parse_score, if_neg hraw, hparse]
      rfl
    · rw [objField_sort_product_score, objField_enforce_product_score]
      exact score_override_of_records kvs fs hfa hrec
  · intro data table raw sub kvs hraw hnone hbe hsub
    refine ⟨apply_sort_recommendations table (enforce_pros_cons (Json.obj kvs)), ?_, ?_⟩
    · simp only [compare_endpoint_result, compare_parse_score, if_neg hraw, hnone, hbe, hsub]
      rfl
    · rw [objField_sort_product_score, objField_enforce_product_score]
      rfl
  · intro data table raw kvs fs hraw hparse hfa hrec hsome
    have hover : apply_score_override (Json.obj kvs) = Json.obj kvs := by
      simp only [apply_score_override, hfa, calc_product_score, hrec]
      simp [hsome]
    refine ⟨apply_sort_recommendations table (enforce_pros_cons (Json.obj kvs)), ?_, ?_⟩
    · simp only [compare_endpoint_result, compare_parse_score, if_neg hraw, hparse, hover]
      rfl
    · rw [objField_sort_product_score, objField_enforce_product_score]
      rfl

set_option maxRecDepth 16384 in
/-- C5 witness: the strict-parse local-computation equation on the bare
bundle `rawStrict5` (one positive Non-Negotiable record, one negative
Must Have record). -/
theorem C5_witness :
    ∃ res, compare_endpoint_result (Json.obj []) [] rawStrict5 = some res ∧
      objField res "product_score".data =
        some (Json.num
          (if 0 < (featsStrict5.filter (fun f =>
                featFieldIs f "category".data "Non-Negotiable Benefits".data ||
                featFieldIs f "category".data "Must Have".data)).length then
            py_round1_ratio
              ((featsStrict5.filter (fun f =>
                  (featFieldIs f "category".data "Non-Negotiable Benefits".data ||
                   featFieldIs f "category".data "Must Have".data) &&
                  featFieldIs f "status".data "Positive".data)).length)
              ((featsStrict5.filter (fun f =>
                  featFieldIs f "category".data "Non-Negotiable Benefits".data ||
                  featFieldIs f "category".data "Must Have".data)).length)
          else 0)) :=
  C5_amended_theorem.1 (Json.obj []) [] rawStrict5 kvsStrict5 featsStrict5
    (by decide) rfl rfl rfl

/-! ### Claim C7: deterministic ranking -/

unseal List.merge List.mergeSort in
/-- C7: ranking looks a candidate's metric up by normalized company name
— exact key match first, then first containment match, else `0.0` — and
stably sorts the recommendations by that metric descending: the worked
example orders Bajaj Allianz (90.0) before HDFC Ergo (86.0), an
unmatched candidate scores `0.0` and sorts last, ties keep their
original order, and in general the sorted list is a permutation of the
input that is pairwise descending in the metric. -/
theorem C7_theorem :
    (sort_recommendations table0 [recBajaj, recHdfc] = [recBajaj, recHdfc] ∧
     sort_recommendations table0 [recNone, recBajaj, recHdfc] = [recBajaj, recHdfc, recNone] ∧
     get_csr_score table0 recNone = 0 ∧
     sort_recommendations tableTie [recAaa, recBbb] = [recAaa, recBbb]) ∧
    (∀ (table : List (Str × ℚ)) (rec : Json),
      (∀ kv ∈ table, (kv.1 == normalize_company (rec_company rec)) = false) →
      (∀ kv ∈ table, (containsList (normalize_company (rec_company rec)) kv.1 ||
          containsList kv.1 (normalize_company (rec_company rec))) = false) →
      get_csr_score table rec = 0) ∧
    (∀ (table : List (Str × ℚ)) (recs : List Json),
      (sort_recommendations table recs).Pairwise
        (fun a b => get_csr_score table b ≤ get_csr_score table a) ∧
      (sort_recommendations table recs).Perm recs) ∧
    (∀ (table : List (Str × ℚ)) (recs : List Json) (a b : Json),
      get_csr_score table a = get_csr_score table b →
      [a, b].Sublist recs → [a, b].Sublist (sort_recommendations table recs)) := by
  have htrans : ∀ (table : List (Str × ℚ)) (a b c : Json),
      decide (get_csr_score table b ≤ get_csr_score table a) = true →
      decide (get_csr_score table c ≤ get_csr_score table b) = true →
      decide (get_csr_score table c ≤ get_csr_score table a) = true := by
    intro table a b c h1 h2
    simp only [decide_eq_true_eq] at h1 h2 ⊢
    exact le_trans h2 h1
  have htotal : ∀ (table : List (Str × ℚ)) (a b : Json),
      (decide (get_csr_score table b ≤ get_csr_score table a) ||
        decide (get_csr_score table a ≤ get_csr_score table b)) = true := by
    intro table a b
    simp only [Bool.or_eq_true, decide_eq_true_eq]
    exact le_total (get_csr_score table b) (get_csr_score table a)
  refine ⟨⟨rfl, rfl, rfl, rfl⟩, ?_, ?_, ?_⟩
  · intro table rec hexact hcontain
    simp only [get_csr_score]
    have h1 : table.find? (fun kv => kv.1 == normalize_company (rec_company rec)) = none :=
      List.find?_eq_none.mpr (fun kv hkv => by simp [hexact kv hkv])
    have h2 : table.find? (fun kv => containsList (normalize_company (rec_company rec)) kv.1 ||
        containsList kv.1 (normalize_company (rec_company rec))) = none :=
      List.find?_eq_none.mpr (fun kv hkv => by simp [hcontain kv hkv])
    rw [h1, h2]
  · intro table recs
    constructor
    · have hs := @List.sorted_mergeSort Json
        (fun a b => decide (get_csr_score table b ≤ get_csr_score table a))
        (htrans table) (htotal table) recs
      exact hs.imp (fun h => decide_eq_true_eq.mp h)
    · exact List.mergeSort_perm recs _
  · intro table recs a b heq hsub
    refine List.sublist_mergeSort (htrans table) (htotal table) ?_ hsub
    refine List.pairwise_pair.mpr ?_
    rw [decide_eq_true_eq, heq]

/-- C7 witness: the zero-default lookup equation applied to the
unmatched candidate `recNone` over the two-entry metric table. -/
theorem C7_witness : get_csr_score table0 recNone = 0 :=
  C7_theorem.2.1 table0 recNone (by decide) (by decide)

/-! ### Claim C8: fuzzy matcher threshold and ties -/

/-- C8: the matcher returns a row only when the tracked best score
strictly exceeds `0.5`; when the best score is at most `0.5` it returns
no match; a row scoring no higher than the current best never replaces
it (so the first-seen row wins ties); and on a concrete tie the first
row is returned while an all-zero scoring returns no match. -/
theorem C8_theorem :
    (∀ (ratio : Str → Str → ℚ) (cn pn : Str) (rows : List CsvRow) (row : CsvRow),
      match_policy_in_csv ratio cn pn rows = some row →
      best_score ratio cn pn rows > mkRat 1 2) ∧
    (∀ (ratio : Str → Str → ℚ) (cn pn : Str) (rows : List CsvRow),
      best_score ratio cn pn rows ≤ mkRat 1 2 →
      match_policy_in_csv ratio cn pn rows = none) ∧
    (∀ (score : CsvRow → Option ℚ) (rows : List CsvRow) (acc : Option CsvRow × ℚ)
        (row : CsvRow) (r : ℚ),
      score row = some r → r ≤ acc.2 →
      match_loop score (row :: rows) acc = match_loop score rows acc) ∧
    (match_policy_in_csv ratioOne "Acme".data "zzz".data [rowAlpha, rowBeta] = some rowAlpha ∧
     row_score ratioOne (trimChars (lowerStr "Acme".data)) (trimChars (lowerStr "zzz".data))
         rowAlpha =
       row_score ratioOne (trimChars (lowerStr "Acme".data)) (trimChars (lowerStr "zzz".data))
         rowBeta ∧
     match_policy_in_csv ratioZero "Acme".data "zzz".data [rowAlpha, rowBeta] = none) := by
  refine ⟨?_, ?_, ?_, rfl, rfl, rfl⟩
  · intro ratio cn pn rows row h
    by_cases hpn : pn = []
    · simp [match_policy_in_csv, hpn] at h
    · simp only [match_policy_in_csv, if_neg hpn] at h
      by_cases hbs : (match_loop (row_score ratio (trimChars (lowerStr cn))
          (trimChars (lowerStr pn))) rows (none, 0)).2 > mkRat 1 2
      · exact hbs
      · rw [if_neg hbs] at h
        exact absurd h (by simp)
  · intro ratio cn pn rows h
    by_cases hpn : pn = []
    · simp [match_policy_in_csv, hpn]
    · have hbs : ¬ (match_loop (row_score ratio (trimChars (lowerStr cn))
          (trimChars (lowerStr pn))) rows (none, 0)).2 > mkRat 1 2 := not_lt.mpr h
      simp only [match_policy_in_csv, if_neg hpn, if_neg hbs]
  · intro score rows acc row r hs hr
    simp only [match_loop, hs, if_neg (not_lt.mpr hr)]

/-- C8 witness: on the concrete tie example the best score strictly
exceeds `0.5` (as the acceptance theorem requires of any returned
row). -/
theorem C8_witness :
    best_score ratioOne "Acme".data "zzz".data [rowAlpha, rowBeta] > mkRat 1 2 :=
  C8_theorem.1 ratioOne "Acme".data "zzz".data [rowAlpha, rowBeta] rowAlpha rfl
